import Mathlib

/-!
Verification of the clipbot shot-list animation/timing engine
(`packages/remotion/src`).  The numeric domain of the TypeScript code
(IEEE doubles used as exact values in these code paths) is embedded as `ℚ`.
Frames, seconds, opacities and colors are all modelled exactly as the
source computes them.

The Remotion library function `interpolate` rejects input ranges that are
not strictly monotonically increasing (it throws), so it is embedded as an
`Option`-valued function (`none` = throw).  The Remotion `spring` evaluator
is transcendental (closed-form damped oscillation using exp/cos); wherever
an effect feeds a spring progress value into the arithmetic under study,
that progress is abstracted as an explicit parameter `s`.
-/

namespace Clipbot

/-- JavaScript `Math.round`: `⌊x + 1/2⌋` (halves round toward +∞),
as a rational-valued function. -/
def jsRound (x : ℚ) : ℚ := ((⌊x + 2⁻¹⌋ : ℤ) : ℚ)

/-- JavaScript `Math.floor` as a rational-valued function. -/
def jsFloor (x : ℚ) : ℚ := ((⌊x⌋ : ℤ) : ℚ)

/-- Remotion `interpolate` restricted to two-point ranges, which is the only
shape this codebase uses.  `input` is mapped from `[a, b]` to `[oMin, oMax]`;
`cl`/`cr` tell whether extrapolation below/above the input range is clamped
(`true`) or extended linearly (`false`, the Remotion default).  Remotion
throws when the input range is not strictly increasing, modelled as `none`. -/
def interpClampInput (input a b : ℚ) (cl cr : Bool) : ℚ :=
  if input < a ∧ cl then (if b < a ∧ cr then b else a)
  else if b < input ∧ cr then b else input

def interpolate2 (input a b oMin oMax : ℚ) (cl cr : Bool) : Option ℚ :=
  if a < b then
    some (oMin + (interpClampInput input a b cl cr - a) / (b - a) * (oMax - oMin))
  else none

theorem interpClampInput_of_mem (input a b : ℚ) (cl cr : Bool)
    (h₁ : a ≤ input) (h₂ : input ≤ b) :
    interpClampInput input a b cl cr = input := by
  unfold interpClampInput
  rw [if_neg, if_neg]
  · rintro ⟨hb, -⟩
    exact absurd h₂ (not_le.mpr hb)
  · rintro ⟨ha, -⟩
    exact absurd h₁ (not_le.mpr ha)

-- ── lib/timing.ts ─────────────────────────────────────────────

/-- `secondsToFrames` from `lib/timing.ts`: `Math.round(seconds * fps)`. -/
def secondsToFrames (seconds fps : ℚ) : ℚ := jsRound (seconds * fps)

/-- `framesToSeconds` from `lib/timing.ts`: exact division. -/
def framesToSeconds (frames fps : ℚ) : ℚ := frames / fps

/-- `durationInFrames` from `lib/timing.ts`:
`Math.max(1, secondsToFrames(endTime - startTime, fps))`. -/
def durationInFrames (startTime endTime fps : ℚ) : ℚ :=
  max 1 (secondsToFrames (endTime - startTime) fps)

/-- `clamp` from `lib/timing.ts`: `Math.min(Math.max(value, lo), hi)`. -/
def clamp (value lo hi : ℚ) : ℚ := min (max value lo) hi

theorem jsRound_sub_le (x : ℚ) : |jsRound x - x| ≤ 2⁻¹ := by
  rw [abs_le]
  unfold jsRound
  have h1 : ((⌊x + 2⁻¹⌋ : ℤ) : ℚ) ≤ x + 2⁻¹ := Int.floor_le _
  have h2 : x + 2⁻¹ < ((⌊x + 2⁻¹⌋ : ℤ) : ℚ) + 1 := Int.lt_floor_add_one _
  constructor <;> linarith

/-- Claim C6: for all `seconds` and all `fps > 0`, converting seconds to a
frame index with `secondsToFrames` and back with `framesToSeconds` lands
within one frame duration (`1/fps`) of the original value. -/
theorem framesToSeconds_secondsToFrames_round_trip (seconds fps : ℚ)
    (hfps : 0 < fps) :
    |framesToSeconds (secondsToFrames seconds fps) fps - seconds| ≤ 1 / fps := by
  have hne : fps ≠ 0 := ne_of_gt hfps
  have key : framesToSeconds (secondsToFrames seconds fps) fps - seconds
      = (jsRound (seconds * fps) - seconds * fps) / fps := by
    unfold framesToSeconds secondsToFrames
    field_simp
    ring
  rw [key, abs_div, abs_of_pos hfps, div_le_div_iff₀ hfps hfps]
  have h := jsRound_sub_le (seconds * fps)
  nlinarith [h, hfps.le]

/-- Witness for C6 at `seconds = 1/3`, `fps = 30`. -/
theorem framesToSeconds_secondsToFrames_round_trip_witness :
    0 < (30 : ℚ) ∧
      |framesToSeconds (secondsToFrames (1/3) 30) 30 - 1/3| ≤ 1 / 30 :=
  ⟨by norm_num,
   framesToSeconds_secondsToFrames_round_trip (1/3) 30 (by norm_num)⟩

-- ── types.ts: caption data model ──────────────────────────────

/-- `CaptionWord` from `types.ts`: a text token with absolute
start/end timestamps in seconds. -/
structure CaptionWord where
  text : String
  startTime : ℚ
  endTime : ℚ
deriving DecidableEq, Repr

/-- `CaptionSegment` from `types.ts`: an ordered group of caption words
with the time range they span. -/
structure CaptionSegment where
  words : List CaptionWord
  startTime : ℚ
  endTime : ℚ
deriving DecidableEq, Repr

-- ── lib/caption-parser.ts ─────────────────────────────────────

/-- The chunking loop of `groupWordsIntoSegments`
(`for (let i = 0; i < words.length; i += m) slice(i, i + m)`),
expressed recursively: each step takes the next `m` elements.
For `m ≥ 1` the step `(x :: xs).drop m` is written `xs.drop (m - 1)`
so the recursion is well-founded. -/
def chunkList {α : Type} (m : ℕ) : List α → List (List α)
  | [] => []
  | x :: xs => (x :: xs).take m :: chunkList m (xs.drop (m - 1))
termination_by l => l.length
decreasing_by simp [List.length_drop]; omega

/-- `groupWordsIntoSegments` from `lib/caption-parser.ts`: partition `words`
into chunks of `m` and wrap each chunk with the time range from its first
word start (`chunk[0].startTime`) to its last word end
(`chunk[chunk.length - 1].endTime`). -/
def groupWordsIntoSegments (words : List CaptionWord) (m : ℕ) :
    List CaptionSegment :=
  (chunkList m words).map fun chunk =>
    { words := chunk
      startTime := (chunk.head?.map CaptionWord.startTime).getD 0
      endTime := (chunk.getLast?.map CaptionWord.endTime).getD 0 }

/-- `getActiveWord` from `lib/caption-parser.ts`: first word whose
half-open interval `[startTime, endTime)` contains `currentTime`,
else `none` (the source's `?? null`). -/
def getActiveWord (words : List CaptionWord) (currentTime : ℚ) :
    Option CaptionWord :=
  words.find? fun w =>
    decide (w.startTime ≤ currentTime) && decide (currentTime < w.endTime)

/-- `getActiveSegment` from `lib/caption-parser.ts`: first segment whose
half-open interval `[startTime, endTime)` contains `currentTime`,
else `none`. -/
def getActiveSegment (segments : List CaptionSegment) (currentTime : ℚ) :
    Option CaptionSegment :=
  segments.find? fun s =>
    decide (s.startTime ≤ currentTime) && decide (currentTime < s.endTime)

-- chunkList facts

theorem chunkList_nil_iff {α : Type} (m : ℕ) (l : List α) :
    chunkList m l = [] ↔ l = [] := by
  cases l with
  | nil => simp [chunkList]
  | cons x xs => simp [chunkList]

theorem chunkList_join {α : Type} (m : ℕ) (hm : 1 ≤ m) :
    ∀ l : List α, (chunkList m l).flatten = l
  | [] => by simp [chunkList]
  | x :: xs => by
    rw [chunkList]
    rw [List.flatten_cons, chunkList_join m hm (xs.drop (m - 1))]
    have hdrop : (x :: xs).drop m = xs.drop (m - 1) := by
      cases m with
      | zero => omega
      | succ k => simp
    rw [← hdrop, List.take_append_drop]
termination_by l => l.length
decreasing_by simp [List.length_drop]; omega

theorem chunkList_mem {α : Type} (m : ℕ) (hm : 1 ≤ m) :
    ∀ l : List α, ∀ c ∈ chunkList m l, c ≠ [] ∧ c.length ≤ m
  | [] => by simp [chunkList]
  | x :: xs => by
    rw [chunkList]
    intro c hc
    rcases List.mem_cons.mp hc with h | h
    · subst h
      refine ⟨?_, ?_⟩
      · cases m with
        | zero => omega
        | succ k => simp
      · simp [List.length_take]
    · exact chunkList_mem m hm (xs.drop (m - 1)) c h
termination_by l => l.length
decreasing_by simp [List.length_drop]; omega

theorem chunkList_dropLast {α : Type} (m : ℕ) (hm : 1 ≤ m) :
    ∀ l : List α, ∀ c ∈ (chunkList m l).dropLast, c.length = m
  | [] => by simp [chunkList]
  | x :: xs => by
    rw [chunkList]
    cases hrec : chunkList m (xs.drop (m - 1)) with
    | nil => simp
    | cons y ys =>
      intro c hc
      rw [List.dropLast_cons₂] at hc
      rcases List.mem_cons.mp hc with h | h
      · subst h
        have hne : xs.drop (m - 1) ≠ [] := by
          intro hnil
          rw [hnil] at hrec
          simp [chunkList] at hrec
        have hlen : m - 1 < xs.length := by
          by_contra hle
          exact hne (List.drop_eq_nil_of_le (by omega))
        simp [List.length_take]
        omega
      · have := chunkList_dropLast m hm (xs.drop (m - 1))
        rw [hrec] at this
        exact this c h
termination_by l => l.length
decreasing_by simp [List.length_drop]; omega

/-- Nine consecutively timed words `w1..w9`, word `i` spanning
`[i-1, i)` seconds, used to check the 9-word segmentation scenario. -/
def nineWords : List CaptionWord :=
  [⟨"w1", 0, 1⟩, ⟨"w2", 1, 2⟩, ⟨"w3", 2, 3⟩, ⟨"w4", 3, 4⟩, ⟨"w5", 4, 5⟩,
   ⟨"w6", 5, 6⟩, ⟨"w7", 6, 7⟩, ⟨"w8", 7, 8⟩, ⟨"w9", 8, 9⟩]

/-- Claim C7: `groupWordsIntoSegments` partitions the word list in order
into consecutive nonempty chunks of size at most `m`, every chunk except
possibly the last has size exactly `m`, each segment spans from its first
word's startTime to its last word's endTime, the empty list yields no
segments, and 9 words with `m = 6` yield exactly segments of sizes
`[6, 3]` with the expected time ranges. -/
theorem groupWordsIntoSegments_spec :
    (∀ (ws : List CaptionWord) (m : ℕ), 0 < m →
      ((groupWordsIntoSegments ws m).map CaptionSegment.words).flatten = ws
      ∧ (∀ seg ∈ groupWordsIntoSegments ws m,
          seg.words ≠ [] ∧ seg.words.length ≤ m
          ∧ (∃ wf, seg.words.head? = some wf ∧ seg.startTime = wf.startTime)
          ∧ (∃ wl, seg.words.getLast? = some wl ∧ seg.endTime = wl.endTime))
      ∧ (∀ seg ∈ (groupWordsIntoSegments ws m).dropLast,
          seg.words.length = m)
      ∧ (ws = [] → groupWordsIntoSegments ws m = []))
    ∧ ((groupWordsIntoSegments nineWords 6).map
          (fun s => s.words.length) = [6, 3]
      ∧ (groupWordsIntoSegments nineWords 6).map CaptionSegment.startTime
          = [0, 6]
      ∧ (groupWordsIntoSegments nineWords 6).map CaptionSegment.endTime
          = [6, 9]) := by
  constructor
  · intro ws m hm
    refine ⟨?_, ?_, ?_, ?_⟩
    · rw [groupWordsIntoSegments, List.map_map]
      have : (CaptionSegment.words ∘ fun chunk =>
          CaptionSegment.mk chunk
            ((chunk.head?.map CaptionWord.startTime).getD 0)
            ((chunk.getLast?.map CaptionWord.endTime).getD 0))
          = id := by
        funext c
        rfl
      rw [this, List.map_id]
      exact chunkList_join m hm ws
    · intro seg hseg
      rw [groupWordsIntoSegments, List.mem_map] at hseg
      obtain ⟨c, hc, rfl⟩ := hseg
      obtain ⟨hne, hlen⟩ := chunkList_mem m hm ws c hc
      refine ⟨hne, hlen, ?_, ?_⟩
      · exact ⟨c.head hne, by simp [List.head?_eq_head hne]⟩
      · exact ⟨c.getLast hne, by simp [List.getLast?_eq_getLast c hne]⟩
    · intro seg hseg
      rw [groupWordsIntoSegments, ← List.map_dropLast, List.mem_map] at hseg
      obtain ⟨c, hc, rfl⟩ := hseg
      exact chunkList_dropLast m hm ws c hc
    · intro h
      subst h
      simp [groupWordsIntoSegments, chunkList]
  · refine ⟨?_, ?_, ?_⟩ <;>
      simp [groupWordsIntoSegments, chunkList, nineWords]

/-- Witness for C7: the universal part applied to the nine concrete words
with `m = 6`. -/
theorem groupWordsIntoSegments_spec_witness :
    0 < 6 ∧
      ((groupWordsIntoSegments nineWords 6).map
        CaptionSegment.words).flatten = nineWords :=
  ⟨by norm_num,
   (groupWordsIntoSegments_spec.1 nineWords 6 (by norm_num)).1⟩

/-- Claim C8: `getActiveWord` and `getActiveSegment` return the first
entry in list order whose half-open interval `[startTime, endTime)`
contains the query time, and `none` exactly when no entry's interval
contains it; both are total functions (they never raise). -/
theorem getActiveWord_getActiveSegment_spec :
    ∀ t : ℚ,
    (∀ ws : List CaptionWord,
      (getActiveWord ws t = none
        ↔ ∀ w ∈ ws, ¬(w.startTime ≤ t ∧ t < w.endTime))
      ∧ (∀ w, getActiveWord ws t = some w →
          (w.startTime ≤ t ∧ t < w.endTime)
          ∧ ∃ l₁ l₂, ws = l₁ ++ w :: l₂
              ∧ ∀ u ∈ l₁, ¬(u.startTime ≤ t ∧ t < u.endTime)))
    ∧ (∀ segs : List CaptionSegment,
      (getActiveSegment segs t = none
        ↔ ∀ s ∈ segs, ¬(s.startTime ≤ t ∧ t < s.endTime))
      ∧ (∀ s, getActiveSegment segs t = some s →
          (s.startTime ≤ t ∧ t < s.endTime)
          ∧ ∃ l₁ l₂, segs = l₁ ++ s :: l₂
              ∧ ∀ u ∈ l₁, ¬(u.startTime ≤ t ∧ t < u.endTime))) := by
  intro t
  constructor
  · intro ws
    constructor
    · rw [getActiveWord, List.find?_eq_none]
      simp
    · intro w hw
      rw [getActiveWord, List.find?_eq_some] at hw
      obtain ⟨hp, l₁, l₂, heq, hall⟩ := hw
      refine ⟨by simpa using hp, l₁, l₂, heq, ?_⟩
      intro u hu
      have h : t < u.startTime ∨ u.endTime ≤ t := by simpa using hall u hu
      rintro ⟨h1, h2⟩
      rcases h with h | h
      · exact absurd h1 (not_le.mpr h)
      · exact absurd h2 (not_lt.mpr h)
  · intro segs
    constructor
    · rw [getActiveSegment, List.find?_eq_none]
      simp
    · intro s hs
      rw [getActiveSegment, List.find?_eq_some] at hs
      obtain ⟨hp, l₁, l₂, heq, hall⟩ := hs
      refine ⟨by simpa using hp, l₁, l₂, heq, ?_⟩
      intro u hu
      have h : t < u.startTime ∨ u.endTime ≤ t := by simpa using hall u hu
      rintro ⟨h1, h2⟩
      rcases h with h | h
      · exact absurd h1 (not_le.mpr h)
      · exact absurd h2 (not_lt.mpr h)

/-- The two-word list from the spec's boundary scenario:
`a` spans `[0,1)`, `b` spans `[1,2)`. -/
def exWords : List CaptionWord := [⟨"a", 0, 1⟩, ⟨"b", 1, 2⟩]

/-- Witness for C8 on the spec's two-word scenario: time `1/2` hits `a`,
the half-open boundary `1` hits `b`, and `2` hits nothing. -/
theorem getActiveWord_getActiveSegment_spec_witness :
    (getActiveWord exWords (1/2) = some ⟨"a", 0, 1⟩
      ∧ (CaptionWord.startTime ⟨"a", 0, 1⟩ ≤ 1/2
          ∧ (1/2 : ℚ) < CaptionWord.endTime ⟨"a", 0, 1⟩))
    ∧ getActiveWord exWords 1 = some ⟨"b", 1, 2⟩
    ∧ getActiveWord exWords 2 = none := by
  have h₁ : getActiveWord exWords (1/2) = some ⟨"a", 0, 1⟩ := by
    simp [getActiveWord, exWords, List.find?]
    norm_num
  have h₂ :=
    ((getActiveWord_getActiveSegment_spec (1/2)).1 exWords).2 _ h₁
  refine ⟨⟨h₁, h₂.1⟩, ?_, ?_⟩
  · simp [getActiveWord, exWords, List.find?]
  · rw [((getActiveWord_getActiveSegment_spec 2).1 exWords).1]
    intro w hw
    simp [exWords] at hw
    rcases hw with h | h <;> subst h <;> norm_num

-- ── types.ts: caption style and preset model ──────────────────

/-- `CaptionStyle` from `types.ts`: the four caption style variant tags. -/
inductive CaptionStyle where
  | viralPopupStyle
  | cleanMinimalStyle
  | boldImpactStyle
  | neonGlowStyle
deriving DecidableEq, Repr

/-- `ColorScheme` from `types.ts`. -/
structure ColorScheme where
  primary : String
  secondary : String
  accent : String
  background : String
  text : String
  highlight : String
deriving DecidableEq, Repr

/-- `CaptionStyleConfig` from `types.ts`.  String-typed union fields
(`textTransform`, `position`) carry the source's literal values. -/
structure CaptionStyleConfig where
  style : CaptionStyle
  fontSize : ℚ
  fontWeight : ℚ
  fontFamily : String
  textTransform : String
  position : String
  backgroundColor : Option String := none
  padding : ℚ
  borderRadius : ℚ
  shadow : Option String := none
  glowColor : Option String := none
  glowIntensity : Option ℚ := none
deriving DecidableEq, Repr

/-- `TypographyDefaults` from `types.ts`. -/
structure TypographyDefaults where
  fontFamily : String
  fontSize : ℚ
  fontWeight : ℚ
  color : String
  strokeColor : Option String := none
  strokeWidth : Option ℚ := none
  shadow : Option String := none
deriving DecidableEq, Repr

/-- `TransitionDefaults` from `types.ts`. -/
structure TransitionDefaults where
  type : String
  durationFrames : ℚ
  flashColor : Option String := none
deriving DecidableEq, Repr

/-- `Preset` from `types.ts`. -/
structure Preset where
  name : String
  captionStyle : CaptionStyleConfig
  typographyDefaults : TypographyDefaults
  transitionDefaults : TransitionDefaults
  colorScheme : ColorScheme
deriving DecidableEq, Repr

-- ── presets/*.ts: the four built-in presets ───────────────────

/-- `viralPopup` from `presets/viral-popup.ts`. -/
def viralPopup : Preset :=
  { name := "viral-popup"
    captionStyle :=
      { style := .viralPopupStyle
        fontSize := 64
        fontWeight := 900
        fontFamily := "Inter, Arial, sans-serif"
        textTransform := "uppercase"
        position := "center"
        padding := 12
        borderRadius := 8
        shadow := some "0 4px 30px rgba(0,0,0,0.6)" }
    typographyDefaults :=
      { fontFamily := "Inter, Arial, sans-serif"
        fontSize := 80
        fontWeight := 900
        color := "#FFFFFF"
        strokeColor := some "#000000"
        strokeWidth := some 2
        shadow := some "0 4px 20px rgba(0,0,0,0.5)" }
    transitionDefaults :=
      { type := "quick-cut"
        durationFrames := 6
        flashColor := some "#FFFFFF" }
    colorScheme :=
      { primary := "#FF3B30"
        secondary := "#FF9500"
        accent := "#FFD700"
        background := "#000000"
        text := "#FFFFFF"
        highlight := "#FFD700" } }

/-- `cleanMinimal` from `presets/clean-minimal.ts`. -/
def cleanMinimal : Preset :=
  { name := "clean-minimal"
    captionStyle :=
      { style := .cleanMinimalStyle
        fontSize := 36
        fontWeight := 500
        fontFamily := "Inter, Helvetica, Arial, sans-serif"
        textTransform := "none"
        position := "bottom"
        backgroundColor := some "rgba(0, 0, 0, 0.45)"
        padding := 10
        borderRadius := 6
        shadow := some "0 2px 8px rgba(0,0,0,0.2)" }
    typographyDefaults :=
      { fontFamily := "Inter, Helvetica, Arial, sans-serif"
        fontSize := 48
        fontWeight := 600
        color := "#FFFFFF"
        shadow := some "0 2px 10px rgba(0,0,0,0.3)" }
    transitionDefaults :=
      { type := "fade"
        durationFrames := 12 }
    colorScheme :=
      { primary := "#2C2C2E"
        secondary := "#636366"
        accent := "#007AFF"
        background := "#000000"
        text := "#FFFFFF"
        highlight := "#007AFF" } }

/-- `boldImpact` from `presets/bold-impact.ts`. -/
def boldImpact : Preset :=
  { name := "bold-impact"
    captionStyle :=
      { style := .boldImpactStyle
        fontSize := 44
        fontWeight := 800
        fontFamily := "Inter, Arial Black, sans-serif"
        textTransform := "uppercase"
        position := "bottom"
        backgroundColor := some "rgba(220, 20, 20, 0.85)"
        padding := 14
        borderRadius := 0
        shadow := some "0 4px 20px rgba(0,0,0,0.5)" }
    typographyDefaults :=
      { fontFamily := "Inter, Arial Black, sans-serif"
        fontSize := 72
        fontWeight := 900
        color := "#FFFFFF"
        strokeColor := some "#CC0000"
        strokeWidth := some 3
        shadow := some "0 4px 15px rgba(0,0,0,0.6)" }
    transitionDefaults :=
      { type := "quick-cut"
        durationFrames := 4
        flashColor := some "#000000" }
    colorScheme :=
      { primary := "#CC0000"
        secondary := "#1C1C1E"
        accent := "#FFFFFF"
        background := "#0A0A0A"
        text := "#FFFFFF"
        highlight := "#FF3B30" } }

/-- `neonGlow` from `presets/neon-glow.ts`. -/
def neonGlow : Preset :=
  { name := "neon-glow"
    captionStyle :=
      { style := .neonGlowStyle
        fontSize := 48
        fontWeight := 700
        fontFamily := "Inter, Arial, sans-serif"
        textTransform := "uppercase"
        position := "center"
        padding := 12
        borderRadius := 8
        glowColor := some "#00BFFF"
        glowIntensity := some 30
        shadow := some "0 0 20px #00BFFF, 0 0 40px #00BFFF60" }
    typographyDefaults :=
      { fontFamily := "Inter, Arial, sans-serif"
        fontSize := 68
        fontWeight := 800
        color := "#FFFFFF"
        shadow := some "0 0 30px #00BFFF, 0 0 60px #00BFFF50, 0 0 90px #00BFFF30" }
    transitionDefaults :=
      { type := "fade"
        durationFrames := 10 }
    colorScheme :=
      { primary := "#00BFFF"
        secondary := "#7B2FBE"
        accent := "#00FF88"
        background := "#0A0A1A"
        text := "#FFFFFF"
        highlight := "#00BFFF" } }

/-- The `presets` record from `presets/index.ts`: the own (literal)
key/value pairs of the object, in declaration order. -/
def presets : List (String × Preset) :=
  [("viral-popup", viralPopup), ("clean-minimal", cleanMinimal),
   ("bold-impact", boldImpact), ("neon-glow", neonGlow)]

/-- A JavaScript value that `presets[name]` can produce at runtime: one of
the preset objects, or a member inherited from `Object.prototype` (always
a truthy function or object), or `undefined`. -/
inductive JsValue where
  | presetVal (p : Preset)
  | protoMember (name : String)
  | undefinedVal
deriving DecidableEq, Repr

/-- The property names every plain object inherits from
`Object.prototype` (ECMA-262, including the Annex B accessor
definitions). -/
def objectProtoMembers : List String :=
  ["constructor", "hasOwnProperty", "isPrototypeOf", "propertyIsEnumerable",
   "toLocaleString", "toString", "valueOf", "__proto__",
   "__defineGetter__", "__defineSetter__", "__lookupGetter__",
   "__lookupSetter__"]

/-- JavaScript bracket access `obj[name]` on an object literal: an own
property if the key is present, otherwise the member inherited from
`Object.prototype` if `name` is one of its properties, otherwise
`undefined`. -/
def jsIndex (obj : List (String × Preset)) (name : String) : JsValue :=
  match obj.lookup name with
  | some p => .presetVal p
  | none =>
    if objectProtoMembers.contains name then .protoMember name else .undefinedVal

/-- `getPreset` from `presets/index.ts`: `const preset = presets[name]`
followed by `if (!preset) throw ...`.  Only `undefined` is falsy among the
values `presets[name]` can yield (the four presets are objects and every
inherited `Object.prototype` member is a function or object), so the
throw fires exactly on the `undefined` case; any truthy lookup result —
including an inherited member such as `constructor` — is returned. -/
def getPreset (name : String) : Except String JsValue :=
  match jsIndex presets name with
  | .undefinedVal => .error ("Unknown preset \"" ++ name ++ "\". Available: "
      ++ String.intercalate ", " (presets.map Prod.fst))
  | v => .ok v

-- ── compositions/CaptionOverlay.tsx: per-word style table ─────

/-- `getDefaultHighlightColor` from `CaptionOverlay.tsx`. -/
def getDefaultHighlightColor : CaptionStyle → String
  | .viralPopupStyle => "#FFD700"
  | .cleanMinimalStyle => "#007AFF"
  | .boldImpactStyle => "#FFFF00"
  | .neonGlowStyle => "#00BFFF"

/-- The `color` attribute produced by `getWordDynamicStyle` in
`CaptionOverlay.tsx`: `activeColor = colorOverride ?? default highlight`,
`color = (isActive || isEmphasized) ? activeColor : '#FFFFFF'`, then the
per-style switch picks the final value (the `clean-minimal` branch tests
only `isActive`, and the `bold-impact` branch hard-codes its colors). -/
def getWordDynamicStyleColor (style : CaptionStyle)
    (isActive isEmphasized : Bool) (colorOverride : Option String) : String :=
  let activeColor := colorOverride.getD (getDefaultHighlightColor style)
  let color := if isActive || isEmphasized then activeColor else "#FFFFFF"
  match style with
  | .viralPopupStyle => color
  | .cleanMinimalStyle =>
      if isActive then activeColor else "rgba(255,255,255,0.9)"
  | .boldImpactStyle =>
      if isActive || isEmphasized then "#FFFF00" else "#FFFFFF"
  | .neonGlowStyle => color

/-- JavaScript `String.prototype.toLowerCase` on the ASCII range,
per character: letters `A`-`Z` (code points 65-90) shift by 32. -/
def jsLowerChar (c : Char) : Char :=
  if 65 ≤ c.toNat ∧ c.toNat ≤ 90 then Char.ofNat (c.toNat + 32) else c

/-- JavaScript `toLowerCase` over a whole string (ASCII range). -/
def jsToLowerCase (s : String) : String := ⟨s.data.map jsLowerChar⟩

/-- The emphasis test from `CaptionOverlay.tsx`: the lowercased word text
is a member of the lowercased configured word list
(`emphasizeSet.has(word.text.toLowerCase())`). -/
def isEmphasizedWord (emphasizeWords : List String) (text : String) : Bool :=
  (emphasizeWords.map jsToLowerCase).contains (jsToLowerCase text)

/-- Counterexample to claim C3: with the `clean-minimal` style, the word
"Amazing" matching the configured list `["amazing"]` case-insensitively,
and the word not currently active, the rendered color is the inactive
white, not the style's highlight color. -/
theorem captionEmphasis_counterexample :
    isEmphasizedWord ["amazing"] "Amazing" = true
    ∧ getWordDynamicStyleColor .cleanMinimalStyle false
        (isEmphasizedWord ["amazing"] "Amazing") none
        = "rgba(255,255,255,0.9)"
    ∧ getDefaultHighlightColor .cleanMinimalStyle = "#007AFF"
    ∧ getWordDynamicStyleColor .cleanMinimalStyle false
        (isEmphasizedWord ["amazing"] "Amazing") none
        ≠ getDefaultHighlightColor .cleanMinimalStyle := by
  refine ⟨by decide, rfl, rfl, by decide⟩

/-- Claim C3 as amended: for the viral-popup, bold-impact and neon-glow
styles (without a color override), a word matching the emphasize list
case-insensitively renders in the style's highlight color whether or not
it is the active word; the clean-minimal style ignores emphasis and
highlights only the active word. -/
theorem captionEmphasis_amended :
    (∀ style : CaptionStyle, style ≠ .cleanMinimalStyle →
      ∀ (ews : List String) (text : String) (isActive : Bool),
        isEmphasizedWord ews text = true →
        getWordDynamicStyleColor style isActive (isEmphasizedWord ews text)
            none
          = getDefaultHighlightColor style)
    ∧ (∀ emph : Bool,
        getWordDynamicStyleColor .cleanMinimalStyle false emph none
          = "rgba(255,255,255,0.9)") := by
  constructor
  · intro style hs ews text isActive he
    rw [he]
    cases style with
    | viralPopupStyle =>
      cases isActive <;> rfl
    | cleanMinimalStyle => exact absurd rfl hs
    | boldImpactStyle =>
      cases isActive <;> rfl
    | neonGlowStyle =>
      cases isActive <;> rfl
  · intro emph
    cases emph <;> rfl

/-- Witness for the amended C3 with style viral-popup, list `["go"]`,
word "GO", inactive. -/
theorem captionEmphasis_amended_witness :
    (CaptionStyle.viralPopupStyle ≠ .cleanMinimalStyle
      ∧ isEmphasizedWord ["go"] "GO" = true)
    ∧ getWordDynamicStyleColor .viralPopupStyle false
        (isEmphasizedWord ["go"] "GO") none = "#FFD700" := by
  refine ⟨⟨by decide, by decide⟩, ?_⟩
  rw [captionEmphasis_amended.1 .viralPopupStyle (by decide) ["go"] "GO"
    false (by decide)]
  rfl

-- ── effects/*.tsx: typography opacity pipelines ───────────────
-- In each renderer `none` models the component rendering nothing
-- (the `localFrame < 0 || localFrame >= durationInFrames` early return);
-- in-window, every interpolation below has a constant valid range and
-- always succeeds.  The spring progress feeding an entrance opacity is
-- abstracted as the parameter `s`.

/-- The exit-fade factor shared by KineticSlam, GlowReveal and BounceIn:
`exitStart = durationInFrames - 8`, and for `localFrame ≥ exitStart` the
factor is `interpolate(localFrame, [exitStart, durationInFrames], [1, 0])`
clamped on both sides, else `1`. -/
def exitFadeOpacity (d localFrame : ℚ) : Option ℚ :=
  if d - 8 ≤ localFrame then interpolate2 localFrame (d - 8) d 1 0 true true
  else some 1

/-- The output opacity of `KineticSlam` (`effects/KineticSlam.tsx`):
entrance `interpolate(localFrame, [0, 2], [0, 1])` clamped on the right,
multiplied by the exit fade; `none` outside the activation window. -/
def kineticSlamOpacity (d localFrame : ℚ) : Option ℚ :=
  if localFrame < 0 ∨ d ≤ localFrame then none
  else
    (interpolate2 localFrame 0 2 0 1 false true).bind fun entrance =>
      (exitFadeOpacity d localFrame).map fun exitO => entrance * exitO

/-- The output opacity of `GlowReveal` (`effects/GlowReveal.tsx`):
entrance `interpolate(revealProgress, [0, 1], [0, 1])` (the spring value
`s`), multiplied by the exit fade; `none` outside the window. -/
def glowRevealOpacity (d localFrame s : ℚ) : Option ℚ :=
  if localFrame < 0 ∨ d ≤ localFrame then none
  else
    (interpolate2 s 0 1 0 1 false false).bind fun entrance =>
      (exitFadeOpacity d localFrame).map fun exitO => entrance * exitO

/-- The output opacity of `BounceIn` (`effects/BounceIn.tsx`): entrance
`interpolate(bounceProgress, [0, 1], [0, 1])` (the spring value `s`),
multiplied by the exit fade; `none` outside the window. -/
def bounceInOpacity (d localFrame s : ℚ) : Option ℚ :=
  if localFrame < 0 ∨ d ≤ localFrame then none
  else
    (interpolate2 s 0 1 0 1 false false).bind fun entrance =>
      (exitFadeOpacity d localFrame).map fun exitO => entrance * exitO

/-- The opacity of one word span in `WordByWord`
(`effects/WordByWord.tsx`): `none` when the whole overlay is outside its
window, `0` before the word's own start frame, and otherwise
`interpolate(appearProgress, [0, 1], [0, 1])` (the snappy spring value
`s`).  There is no exit-fade factor in this renderer. -/
def wordByWordWordOpacity (d localFrame wordStartFrame s : ℚ) : Option ℚ :=
  if localFrame < 0 ∨ d ≤ localFrame then none
  else if localFrame < wordStartFrame then some 0
  else interpolate2 s 0 1 0 1 false false

theorem interpolate2_id_unit (x : ℚ) :
    interpolate2 x 0 1 0 1 false false = some x := by
  unfold interpolate2 interpClampInput
  rw [if_pos (by norm_num : (0:ℚ) < 1), if_neg (by simp), if_neg (by simp)]
  congr 1
  ring

/-- Counterexample to claim C1: with a 20-frame window, local frame 12 is
in the final 8 frames (`12 ≥ 20 - 8`), yet the KineticSlam output opacity
is exactly `1` there (the clamped fade-out multiplier is still `1` at the
window boundary), not strictly below `1`. -/
theorem typographyExitFade_counterexample :
    ((0:ℚ) ≤ 12 ∧ (12:ℚ) < 20 ∧ (20:ℚ) - 8 ≤ 12)
      ∧ kineticSlamOpacity 20 12 = some 1
      ∧ ¬((1:ℚ) < 1) := by
  refine ⟨by norm_num, ?_, by norm_num⟩
  unfold kineticSlamOpacity exitFadeOpacity interpolate2 interpClampInput
  norm_num

/-- Claim C1 as amended: for KineticSlam, GlowReveal and BounceIn, at every
in-window local frame `l` of the final 8 frames of a `d`-frame window the
output opacity is the entrance opacity times the clamped fade-out factor
`(d - l) / 8` — a multiplier independent of the entrance animation that is
`1` exactly at `l = d - 8`, strictly below `1` for `l > d - 8`, and
decreases linearly to `0` at `l = d`.  WordByWord applies no such fade: a
word that has appeared keeps its bare spring-driven entrance opacity `s`,
whatever the local frame. -/
theorem typographyExitFade_amended (d l s : ℚ)
    (h0 : 0 ≤ l) (hld : l < d) (hdl : d - 8 ≤ l) :
    exitFadeOpacity d l = some ((d - l) / 8)
      ∧ (d - l) / 8 ≤ 1
      ∧ (d - 8 < l → (d - l) / 8 < 1)
      ∧ kineticSlamOpacity d l = some (min (l / 2) 1 * ((d - l) / 8))
      ∧ glowRevealOpacity d l s = some (s * ((d - l) / 8))
      ∧ bounceInOpacity d l s = some (s * ((d - l) / 8))
      ∧ ∀ w : ℚ, w ≤ l → wordByWordWordOpacity d l w s = some s := by
  have h8 : d - 8 < d := by linarith
  have hwin : ¬(l < 0 ∨ d ≤ l) := by
    push_neg
    exact ⟨h0, hld⟩
  have hexit : exitFadeOpacity d l = some ((d - l) / 8) := by
    unfold exitFadeOpacity interpolate2
    rw [if_pos hdl, if_pos h8,
      interpClampInput_of_mem l (d - 8) d true true hdl hld.le]
    congr 1
    have hne : d - (d - 8) ≠ 0 := by norm_num
    field_simp
    ring
  have hkinEnt : interpolate2 l 0 2 0 1 false true = some (min (l / 2) 1) := by
    unfold interpolate2 interpClampInput
    rw [if_pos (by norm_num : (0:ℚ) < 2), if_neg (by simp)]
    by_cases h2 : (2:ℚ) < l
    · rw [if_pos ⟨h2, rfl⟩, min_eq_right (by linarith : (1:ℚ) ≤ l / 2)]
      norm_num
    · rw [if_neg (by simp [h2]), min_eq_left (by linarith : l / 2 ≤ 1)]
      congr 1
      ring
  refine ⟨hexit, by linarith, fun hlt => by linarith, ?_, ?_, ?_, ?_⟩
  · unfold kineticSlamOpacity
    rw [if_neg hwin, hkinEnt, hexit]
    rfl
  · unfold glowRevealOpacity
    rw [if_neg hwin, interpolate2_id_unit, hexit]
    rfl
  · unfold bounceInOpacity
    rw [if_neg hwin, interpolate2_id_unit, hexit]
    rfl
  · intro w hw
    unfold wordByWordWordOpacity
    rw [if_neg hwin, if_neg (not_lt.mpr hw), interpolate2_id_unit]

/-- Witness for the amended C1 at `d = 20`, `l = 13`, `s = 1/2`,
`w = 0`. -/
theorem typographyExitFade_amended_witness :
    ((0:ℚ) ≤ 13 ∧ (13:ℚ) < 20 ∧ (20:ℚ) - 8 ≤ 13 ∧ (0:ℚ) ≤ 13)
      ∧ exitFadeOpacity 20 13 = some ((20 - 13) / 8)
      ∧ kineticSlamOpacity 20 13 = some (min (13 / 2) 1 * ((20 - 13) / 8))
      ∧ wordByWordWordOpacity 20 13 0 (1/2) = some (1/2) := by
  have h := typographyExitFade_amended 20 13 (1/2)
    (by norm_num) (by norm_num) (by norm_num)
  exact ⟨by norm_num, h.1, h.2.2.2.1, h.2.2.2.2.2.2 0 (by norm_num)⟩

-- ── effects/QuickCut.tsx and the quick-cut branch of SceneRenderer ──

/-- What the quick-cut layer stack shows at one frame: the opacity of each
rendered copy of the scene content (the zoom/pan-wrapped layer), in order,
and the flash overlay's opacity when the overlay div is present. -/
structure QuickCutOutput where
  contentCopies : List ℚ
  flashOverlay : Option ℚ
deriving DecidableEq, Repr

/-- `QuickCut` (`effects/QuickCut.tsx`): outside `[0, d)` it returns its
children unchanged (one content copy, no opacity wrapper, no overlay);
inside, the flash opacity ramps `0→1` up to `peakFrame = Math.floor(d·0.3)`
then `1→0` to `d`, while the content opacity ramps `0→1` over
`[peakFrame, d]`, both clamped.  (`0.3` is exact here; for the built-in
durations 4, 6, 10 and 12 the float and exact floors agree.) -/
def quickCutRender (d localFrame : ℚ) : Option QuickCutOutput :=
  if localFrame < 0 ∨ d ≤ localFrame then
    some { contentCopies := [1], flashOverlay := none }
  else
    (if localFrame ≤ jsFloor (d * (3/10)) then
        interpolate2 localFrame 0 (jsFloor (d * (3/10))) 0 1 false true
      else
        interpolate2 localFrame (jsFloor (d * (3/10))) d 1 0 true true).bind
      fun flash =>
        (interpolate2 localFrame (jsFloor (d * (3/10))) d 0 1 true true).map
          fun content =>
            { contentCopies := [content], flashOverlay := some flash }

/-- The `scene.transition === 'quick-cut'` branch of `SceneRenderer`
(`compositions/ClipComposition.tsx`): it renders `QuickCut` wrapping the
content and, as a sibling, `frame >= transitionDuration && content` — a
second bare copy of the content once the transition window has passed. -/
def sceneRenderQuickCut (transitionDuration frame : ℚ) : Option QuickCutOutput :=
  (quickCutRender transitionDuration frame).map fun qc =>
    { contentCopies :=
        qc.contentCopies ++ (if transitionDuration ≤ frame then [1] else [])
      flashOverlay := qc.flashOverlay }

/-- Counterexample to claim C2: with the viral-popup preset's quick-cut
duration of 6 frames, at scene-local frame 6 (the first frame at or after
the transition window) the content is rendered twice — once through
QuickCut's pass-through and once through the post-transition sibling — not
exactly once. -/
theorem quickCutPostTransition_counterexample :
    viralPopup.transitionDefaults.durationFrames = 6
      ∧ sceneRenderQuickCut 6 6
          = some { contentCopies := [1, 1], flashOverlay := none }
      ∧ List.length [(1:ℚ), 1] ≠ 1 := by
  refine ⟨rfl, ?_, by norm_num⟩
  unfold sceneRenderQuickCut quickCutRender
  norm_num

/-- Claim C2 as amended: for every scene-local frame at or after the
quick-cut transition duration, the scene content is rendered exactly twice
(once via QuickCut's pass-through, once via the post-transition sibling),
each copy at full opacity, with no flash overlay layer present. -/
theorem quickCutPostTransition_amended (dur frame : ℚ) (h : dur ≤ frame) :
    sceneRenderQuickCut dur frame
      = some { contentCopies := [1, 1], flashOverlay := none } := by
  unfold sceneRenderQuickCut quickCutRender
  rw [if_pos (Or.inr h)]
  simp [if_pos h]

/-- Witness for the amended C2 at duration 6, frame 10. -/
theorem quickCutPostTransition_amended_witness :
    (6:ℚ) ≤ 10
      ∧ sceneRenderQuickCut 6 10
          = some { contentCopies := [1, 1], flashOverlay := none } :=
  ⟨by norm_num, quickCutPostTransition_amended 6 10 (by norm_num)⟩

-- ── compositions/ClipComposition.tsx: focus and layer stack ───

/-- `Scene` from `types.ts`, restricted to the fields the focus
computation reads: the time range and the optional normalized focus
point.  The camera/zoom/pan/typography/broll/transition fields are not
consulted by `ClipComposition`'s objectPosition logic. -/
structure Scene where
  startTime : ℚ
  endTime : ℚ
  focusX : Option ℚ := none
  focusY : Option ℚ := none
deriving DecidableEq, Repr

/-- `Clip` from `types.ts` (captions config and score are not read by the
focus computation). -/
structure Clip where
  startTime : ℚ
  endTime : ℚ
  scenes : List Scene
deriving DecidableEq, Repr

/-- `ShotList` from `types.ts`; `mood` is carried as its literal tag. -/
structure ShotList where
  title : String
  mood : String
  clips : List Clip
deriving DecidableEq, Repr

/-- JavaScript `Array.prototype.findIndex` (first index whose predicate
holds), with the miss value `-1` modelled as `none`. -/
def findIndex {α : Type} (p : α → Bool) : List α → Option ℕ
  | [] => none
  | x :: xs => if p x then some 0 else (findIndex p xs).map (· + 1)

/-- The scene-local start frame used throughout `ClipComposition`:
`secondsToFrames(scene.startTime - clip.startTime, fps)`. -/
def sceneStartFrame (clip : Clip) (scene : Scene) (fps : ℚ) : ℚ :=
  secondsToFrames (scene.startTime - clip.startTime) fps

/-- The scene duration used throughout `ClipComposition`:
`durationInFrames(scene.startTime, scene.endTime, fps)`. -/
def sceneDurationFrames (scene : Scene) (fps : ℚ) : ℚ :=
  durationInFrames scene.startTime scene.endTime fps

/-- The window test of the `findIndex` callback in `ClipComposition`:
`frame >= sceneStart && frame < sceneStart + sceneDuration`. -/
def sceneWindowContains (clip : Clip) (scene : Scene) (fps frame : ℚ) : Bool :=
  decide (sceneStartFrame clip scene fps ≤ frame) &&
    decide (frame < sceneStartFrame clip scene fps + sceneDurationFrames scene fps)

/-- `transitionFrames` from `ClipComposition`:
`Math.min(Math.round(fps * 0.5), Math.floor(sceneDuration / 3))`. -/
def focusTransitionFrames (scene : Scene) (fps : ℚ) : ℚ :=
  min (jsRound (fps * (1/2))) (jsFloor (sceneDurationFrames scene fps / 3))

/-- The objectPosition focus computation of `ClipComposition`
(lines 63-100): find the scene whose frame window contains the current
frame (falling back to scene 0, then to the center default), and near the
end of a non-final scene blend toward the next scene's focus with
`interpolate(localFrame, [transitionStart, sceneDuration - 1], [0, 1])`
clamped on both sides.  `none` models the Remotion `interpolate` throw on
a degenerate (non-strictly-increasing) input range. -/
def computeFocus (clip : Clip) (fps frame : ℚ) : Option (ℚ × ℚ) :=
  match findIndex (fun s => sceneWindowContains clip s fps frame) clip.scenes with
  | some i =>
    match clip.scenes[i]? with
    | some activeScene =>
      if i < clip.scenes.length - 1 then
        match clip.scenes[i + 1]? with
        | some nextScene =>
          if sceneDurationFrames activeScene fps
              - focusTransitionFrames activeScene fps
              ≤ frame - sceneStartFrame clip activeScene fps then
            (interpolate2 (frame - sceneStartFrame clip activeScene fps)
                (sceneDurationFrames activeScene fps
                  - focusTransitionFrames activeScene fps)
                (sceneDurationFrames activeScene fps - 1)
                0 1 true true).map fun t =>
              (activeScene.focusX.getD (1/2)
                  + (nextScene.focusX.getD (1/2)
                      - activeScene.focusX.getD (1/2)) * t,
               activeScene.focusY.getD (1/2)
                  + (nextScene.focusY.getD (1/2)
                      - activeScene.focusY.getD (1/2)) * t)
          else some (activeScene.focusX.getD (1/2), activeScene.focusY.getD (1/2))
        | none =>
          some (activeScene.focusX.getD (1/2), activeScene.focusY.getD (1/2))
      else some (activeScene.focusX.getD (1/2), activeScene.focusY.getD (1/2))
    | none => some (1/2, 1/2)
  | none =>
    match clip.scenes[0]? with
    | some firstScene =>
      some (firstScene.focusX.getD (1/2), firstScene.focusY.getD (1/2))
    | none => some (1/2, 1/2)

/-- One layer of the per-frame output stack of `ClipComposition`. -/
inductive Layer where
  | background (color : String)
  | video (focusX focusY : ℚ)
  | sceneLayer (scene : Scene)
  | captionLayer
deriving DecidableEq, Repr

/-- The top of `ClipComposition`: with no clip
(`shotList.clips[0]` undefined) it returns a plain black `AbsoluteFill`;
otherwise it stacks, back to front, the black fill, the base video with
the computed objectPosition focus, one sequence per scene and — when
caption segments were supplied — the caption overlay. -/
def renderComposition (shotList : ShotList) (captions : List CaptionSegment)
    (fps frame : ℚ) : Option (List Layer) :=
  match shotList.clips with
  | [] => some [Layer.background "#000"]
  | clip :: _ =>
    (computeFocus clip fps frame).map fun focus =>
      Layer.background "#000"
        :: Layer.video focus.1 focus.2
        :: (clip.scenes.map Layer.sceneLayer
            ++ if captions.isEmpty then [] else [Layer.captionLayer])

-- findIndex facts

theorem findIndex_eq_none {α : Type} (p : α → Bool) :
    ∀ l : List α, (∀ x ∈ l, p x = false) → findIndex p l = none
  | [] => fun _ => rfl
  | x :: xs => fun h => by
    unfold findIndex
    rw [if_neg (by simp [h x (List.mem_cons_self x xs)]),
      findIndex_eq_none p xs fun y hy => h y (List.mem_cons_of_mem x hy)]
    rfl

theorem findIndex_eq_some {α : Type} (p : α → Bool) :
    ∀ (l : List α) (i : ℕ) (h : i < l.length),
      p (l.get ⟨i, h⟩) = true →
      (∀ j (hj : j < i), p (l.get ⟨j, lt_trans hj h⟩) = false) →
      findIndex p l = some i
  | [], i, h => by simp at h
  | x :: xs, 0, h => fun hp _ => by
    unfold findIndex
    rw [if_pos (show p x = true from hp)]
  | x :: xs, i + 1, h => fun hp hbefore => by
    unfold findIndex
    have hx : p x = false := hbefore 0 (Nat.succ_pos i)
    rw [if_neg (by simp [hx]),
      findIndex_eq_some p xs i (by simpa using h) hp
        fun j hj => hbefore (j + 1) (by omega)]
    rfl

/-- Claim C9: with an empty clip sequence, `ClipComposition` renders the
plain black background layer at every frame and cannot fail. -/
theorem renderComposition_emptyClips (shotList : ShotList)
    (captions : List CaptionSegment) (fps frame : ℚ)
    (h : shotList.clips = []) :
    renderComposition shotList captions fps frame
      = some [Layer.background "#000"] := by
  unfold renderComposition
  rw [h]

/-- Witness for C9 on a concrete empty shot list. -/
theorem renderComposition_emptyClips_witness :
    (ShotList.mk "t" "calm" []).clips = []
      ∧ renderComposition ⟨"t", "calm", []⟩ [] 30 7
          = some [Layer.background "#000"] :=
  ⟨rfl, renderComposition_emptyClips ⟨"t", "calm", []⟩ [] 30 7 rfl⟩

/-- Claim C10: at a frame outside every scene's window of a clip with a
non-empty scene list, the objectPosition focus is the first scene's focus
point (center default per axis when unset). -/
theorem focusOutsideScenes_spec (clip : Clip) (fps frame : ℚ)
    (firstScene : Scene) (hhead : clip.scenes.head? = some firstScene)
    (hout : ∀ s ∈ clip.scenes,
      sceneWindowContains clip s fps frame = false) :
    computeFocus clip fps frame
      = some (firstScene.focusX.getD (1/2), firstScene.focusY.getD (1/2)) := by
  unfold computeFocus
  rw [findIndex_eq_none _ _ hout]
  rw [List.head?_eq_getElem?] at hhead
  rw [hhead]

/-- Witness for C10: a single scene spanning `[1s, 2s)` at 30 fps (frame
window `[30, 60)`) queried at frame 0. -/
theorem focusOutsideScenes_spec_witness :
    ((Clip.mk 0 2 [⟨1, 2, some (7/10), none⟩]).scenes.head?
        = some ⟨1, 2, some (7/10), none⟩
      ∧ ∀ s ∈ (Clip.mk 0 2 [⟨1, 2, some (7/10), none⟩]).scenes,
          sceneWindowContains (Clip.mk 0 2 [⟨1, 2, some (7/10), none⟩]) s 30 0
            = false)
    ∧ computeFocus (Clip.mk 0 2 [⟨1, 2, some (7/10), none⟩]) 30 0
        = some (7/10, 1/2) := by
  have hout : ∀ s ∈ (Clip.mk 0 2 [⟨1, 2, some (7/10), none⟩]).scenes,
      sceneWindowContains (Clip.mk 0 2 [⟨1, 2, some (7/10), none⟩]) s 30 0
        = false := by
    intro s hs
    have hs' : s = ⟨1, 2, some (7/10), none⟩ := by
      simpa using hs
    subst hs'
    have hstart : sceneStartFrame (Clip.mk 0 2 [⟨1, 2, some (7/10), none⟩])
        ⟨1, 2, some (7/10), none⟩ 30 = 30 := by
      norm_num [sceneStartFrame, secondsToFrames, jsRound]
    simp [sceneWindowContains, hstart]
  exact ⟨⟨rfl, hout⟩,
    focusOutsideScenes_spec (Clip.mk 0 2 [⟨1, 2, some (7/10), none⟩]) 30 0
      ⟨1, 2, some (7/10), none⟩ rfl hout⟩

/-- A two-scene clip whose first scene lasts only 3 frames at 30 fps
(`[0s, 0.1s)`), so `transitionFrames = min(15, floor(3/3)) = 1` and the
blend input range degenerates at the scene's last frame. -/
def shortClip : Clip :=
  { startTime := 0, endTime := 1
    scenes := [⟨0, 1/10, some 0, some 0⟩, ⟨1/10, 1, some 1, some 1⟩] }

/-- Counterexample to claim C4: frame 2 lies inside the first scene's
window `[0, 3)` of `shortClip` and a next scene exists, so the claim
prescribes a blended focus value; the code instead reaches
`interpolate(2, [2, 2], [0, 1])`, whose input range is not strictly
increasing, and the render errors (`none`). -/
theorem shortClip_scene0_window :
    sceneWindowContains shortClip ⟨0, 1/10, some 0, some 0⟩ 30 2 = true := by
  have hstart0 : sceneStartFrame shortClip ⟨0, 1/10, some 0, some 0⟩ 30 = 0 := by
    norm_num [sceneStartFrame, secondsToFrames, jsRound, shortClip]
  have hdur0 : sceneDurationFrames ⟨0, 1/10, some 0, some 0⟩ 30 = 3 := by
    norm_num [sceneDurationFrames, durationInFrames, secondsToFrames, jsRound]
  unfold sceneWindowContains
  rw [hstart0, hdur0]
  simp only [Bool.and_eq_true, decide_eq_true_eq]
  norm_num

theorem shortClip_focus_degenerate : computeFocus shortClip 30 2 = none := by
  have hstart0 : sceneStartFrame shortClip ⟨0, 1/10, some 0, some 0⟩ 30 = 0 := by
    norm_num [sceneStartFrame, secondsToFrames, jsRound, shortClip]
  have hdur0 : sceneDurationFrames ⟨0, 1/10, some 0, some 0⟩ 30 = 3 := by
    norm_num [sceneDurationFrames, durationInFrames, secondsToFrames, jsRound]
  have htf : focusTransitionFrames ⟨0, 1/10, some 0, some 0⟩ 30 = 1 := by
    rw [focusTransitionFrames, hdur0]
    norm_num [jsRound, jsFloor]
  have hscenes : shortClip.scenes
      = ⟨0, 1/10, some 0, some 0⟩ :: [⟨1/10, 1, some 1, some 1⟩] := rfl
  have hidx : findIndex (fun s => sceneWindowContains shortClip s 30 2)
      shortClip.scenes = some 0 := by
    rw [hscenes]
    unfold findIndex
    rw [if_pos shortClip_scene0_window]
  unfold computeFocus
  rw [hidx]
  have h0 : shortClip.scenes[0]? = some ⟨0, 1/10, some 0, some 0⟩ := rfl
  have h1 : shortClip.scenes[1]? = some ⟨1/10, 1, some 1, some 1⟩ := rfl
  simp only [h0, h1, Option.map_eq_map]
  rw [if_pos (by norm_num [shortClip]), if_pos (by rw [hdur0, htf, hstart0]; norm_num)]
  rw [hdur0, htf, hstart0]
  unfold interpolate2
  rw [if_neg (by norm_num)]
  rfl

theorem focusBlend_counterexample :
    sceneWindowContains shortClip ⟨0, 1/10, some 0, some 0⟩ 30 2 = true
      ∧ shortClip.scenes.length = 2
      ∧ computeFocus shortClip 30 2 = none :=
  ⟨shortClip_scene0_window, rfl, shortClip_focus_degenerate⟩

/-- Claim C4 as amended: let scene `i` (with first-match window containing
the frame) have duration `D`, local frame `L` and
`tf = min(round(0.5·fps), floor(D/3))`.  Inside the last scene the focus is
static at that scene's focus.  For a non-final scene: before the blend
window (`L < D - tf`) the focus is static at scene `i`'s focus; inside it,
provided `tf ≥ 2` (and `L ≤ D - 1`, automatic for integer frames), the
focus is the linear blend to scene `i+1`'s focus parameterized from 0 at
`L = D - tf` to 1 at `L = D - 1`; but when `tf = 1` the blend's
interpolation input range `[D - 1, D - 1]` degenerates and rendering
errors instead of producing a focus. -/
theorem focusBlend_amended (clip : Clip) (fps frame : ℚ) (i : ℕ)
    (hi : i < clip.scenes.length) (S : Scene)
    (hS : clip.scenes.get ⟨i, hi⟩ = S)
    (hwin : sceneWindowContains clip S fps frame = true)
    (hfirst : ∀ j (hj : j < i),
      sceneWindowContains clip (clip.scenes.get ⟨j, lt_trans hj hi⟩) fps frame
        = false)
    (D L tf : ℚ)
    (hD : D = sceneDurationFrames S fps)
    (hL : L = frame - sceneStartFrame clip S fps)
    (htf : tf = focusTransitionFrames S fps) :
    (i = clip.scenes.length - 1 →
      computeFocus clip fps frame
        = some (S.focusX.getD (1/2), S.focusY.getD (1/2)))
    ∧ ∀ (N : Scene) (hnext : i + 1 < clip.scenes.length),
        clip.scenes.get ⟨i + 1, hnext⟩ = N →
        (L < D - tf →
          computeFocus clip fps frame
            = some (S.focusX.getD (1/2), S.focusY.getD (1/2)))
        ∧ (D - tf ≤ L → L ≤ D - 1 → 2 ≤ tf →
          computeFocus clip fps frame
            = some (S.focusX.getD (1/2)
                + (N.focusX.getD (1/2) - S.focusX.getD (1/2))
                  * ((L - (D - tf)) / (tf - 1)),
              S.focusY.getD (1/2)
                + (N.focusY.getD (1/2) - S.focusY.getD (1/2))
                  * ((L - (D - tf)) / (tf - 1))))
        ∧ (tf = 1 → D - tf ≤ L → computeFocus clip fps frame = none) := by
  subst hS hD hL htf
  have hidx : findIndex (fun s => sceneWindowContains clip s fps frame)
      clip.scenes = some i :=
    findIndex_eq_some _ clip.scenes i hi hwin hfirst
  have hget : clip.scenes[i]? = some (clip.scenes.get ⟨i, hi⟩) := by
    rw [List.getElem?_eq_getElem hi]
    rfl
  constructor
  · intro hlast
    unfold computeFocus
    rw [hidx]
    simp only [hget]
    rw [if_neg (by omega)]
  · intro N hnext hN
    have hgetN : clip.scenes[i + 1]? = some N := by
      rw [List.getElem?_eq_getElem hnext]
      exact congrArg some hN
    refine ⟨?_, ?_, ?_⟩
    · intro hstatic
      unfold computeFocus
      rw [hidx]
      simp only [hget, hgetN]
      rw [if_pos (by omega), if_neg (not_le.mpr hstatic)]
    · intro h1 h2 h3
      unfold computeFocus
      rw [hidx]
      simp only [hget, hgetN]
      rw [if_pos (by omega), if_pos h1]
      unfold interpolate2
      rw [if_pos (by linarith), interpClampInput_of_mem _ _ _ _ _ h1 h2]
      simp only [Option.map_some']
      congr 2 <;>
        · have hden : sceneDurationFrames (clip.scenes.get ⟨i, hi⟩) fps - 1
              - (sceneDurationFrames (clip.scenes.get ⟨i, hi⟩) fps
                - focusTransitionFrames (clip.scenes.get ⟨i, hi⟩) fps)
              = focusTransitionFrames (clip.scenes.get ⟨i, hi⟩) fps - 1 := by
            ring
          rw [hden]
          ring
    · intro htf1 hge
      unfold computeFocus
      rw [hidx]
      simp only [hget, hgetN]
      rw [if_pos (by omega), if_pos hge]
      unfold interpolate2
      rw [if_neg (by rw [htf1]; norm_num)]
      rfl

/-- A two-scene clip whose first scene spans a full second (30 frames at
30 fps), giving `transitionFrames = min(15, 10) = 10` and a well-formed
blend window `[20, 29]`. -/
def blendClip : Clip :=
  { startTime := 0, endTime := 2
    scenes := [⟨0, 1, some 0, some 0⟩, ⟨1, 2, some 1, some 1⟩] }

/-- Witness for the amended C4: inside `blendClip`'s first scene at frame
25 the blend parameter is `(25 - 20) / 9` and the focus is `(5/9, 5/9)`. -/
theorem focusBlend_amended_witness :
    computeFocus blendClip 30 25 = some (5/9, 5/9) := by
  have hstart : sceneStartFrame blendClip ⟨0, 1, some 0, some 0⟩ 30 = 0 := by
    norm_num [sceneStartFrame, secondsToFrames, jsRound, blendClip]
  have hdur : sceneDurationFrames ⟨0, 1, some 0, some 0⟩ 30 = 30 := by
    norm_num [sceneDurationFrames, durationInFrames, secondsToFrames, jsRound]
  have htf : focusTransitionFrames ⟨0, 1, some 0, some 0⟩ 30 = 10 := by
    rw [focusTransitionFrames, hdur]
    norm_num [jsRound, jsFloor]
  have hwin : sceneWindowContains blendClip ⟨0, 1, some 0, some 0⟩ 30 25
      = true := by
    unfold sceneWindowContains
    rw [hstart, hdur]
    simp only [Bool.and_eq_true, decide_eq_true_eq]
    norm_num
  have h := (focusBlend_amended blendClip 30 25 0 (by norm_num [blendClip])
      ⟨0, 1, some 0, some 0⟩ rfl hwin (fun j hj => absurd hj (Nat.not_lt_zero j))
      30 25 10 hdur.symm (by rw [hstart]; norm_num) htf.symm).2
      ⟨1, 2, some 1, some 1⟩ (by norm_num [blendClip]) rfl
  rw [(h.2.1 (by norm_num) (by norm_num) (by norm_num))]
  norm_num

/-- Counterexample to claim C5: `"constructor"` is not one of the four
preset names, yet `getPreset "constructor"` does not raise — the bracket
lookup walks the prototype chain, finds the truthy inherited
`Object.prototype.constructor`, the falsy guard does not fire, and the
inherited member is returned as if it were a preset. -/
theorem getPreset_counterexample :
    "constructor" ∉ ["viral-popup", "clean-minimal", "bold-impact", "neon-glow"]
      ∧ getPreset "constructor" = .ok (.protoMember "constructor")
      ∧ ∀ msg : String, getPreset "constructor" ≠ .error msg := by
  refine ⟨by decide, rfl, ?_⟩
  intro msg
  rw [show getPreset "constructor" = .ok (.protoMember "constructor") from rfl]
  exact fun h => Except.noConfusion h

/-- Claim C5 as amended: `getPreset` returns the corresponding built-in
preset for the four known names; for every other name that is not an
inherited `Object.prototype` member it raises a descriptive error at
configuration time (naming the input and the available presets) rather
than silently falling back; but for the names of inherited
`Object.prototype` members (`constructor`, `toString`, ...) the lookup
finds a truthy inherited value and `getPreset` returns that non-preset
value without raising.  Nor is the configuration-time preset lookup the
only hard-failure path in the core: the focus-blend interpolation also
errors at render time on a degenerate scene (`transitionFrames = 1`). -/
theorem getPreset_amended :
    (getPreset "viral-popup" = .ok (.presetVal viralPopup)
      ∧ getPreset "clean-minimal" = .ok (.presetVal cleanMinimal)
      ∧ getPreset "bold-impact" = .ok (.presetVal boldImpact)
      ∧ getPreset "neon-glow" = .ok (.presetVal neonGlow))
    ∧ (∀ name : String,
        name ∉ ["viral-popup", "clean-minimal", "bold-impact", "neon-glow"] →
        name ∉ objectProtoMembers →
          getPreset name = .error ("Unknown preset \"" ++ name
            ++ "\". Available: viral-popup, clean-minimal, bold-impact, neon-glow"))
    ∧ (∀ name ∈ objectProtoMembers,
        getPreset name = .ok (.protoMember name))
    ∧ computeFocus shortClip 30 2 = none := by
  refine ⟨⟨rfl, rfl, rfl, rfl⟩, ?_,
    by intro name h; fin_cases h <;> rfl, shortClip_focus_degenerate⟩
  intro name h hproto
  simp only [List.mem_cons, List.not_mem_nil, or_false, not_or] at h
  obtain ⟨h1, h2, h3, h4⟩ := h
  have e1 : (name == "viral-popup") = false := beq_eq_false_iff_ne.mpr h1
  have e2 : (name == "clean-minimal") = false := beq_eq_false_iff_ne.mpr h2
  have e3 : (name == "bold-impact") = false := beq_eq_false_iff_ne.mpr h3
  have e4 : (name == "neon-glow") = false := beq_eq_false_iff_ne.mpr h4
  have hcont : objectProtoMembers.contains name = false := by
    simpa using hproto
  unfold getPreset jsIndex presets
  simp only [List.lookup_cons, e1, e2, e3, e4, List.lookup_nil, hcont,
    if_false, Bool.false_eq_true]
  have hjoin : ("\". Available: " ++ String.intercalate ", "
      (List.map Prod.fst [("viral-popup", viralPopup),
        ("clean-minimal", cleanMinimal), ("bold-impact", boldImpact),
        ("neon-glow", neonGlow)]))
      = "\". Available: viral-popup, clean-minimal, bold-impact, neon-glow" :=
    rfl
  rw [String.append_assoc, hjoin]

/-- Witness for the amended C5 at the unknown, non-inherited name
`"nope"` and at the inherited name `"toString"`. -/
theorem getPreset_amended_witness :
    ("nope" ∉ ["viral-popup", "clean-minimal", "bold-impact", "neon-glow"]
      ∧ "nope" ∉ objectProtoMembers)
    ∧ getPreset "nope" = .error ("Unknown preset \"" ++ "nope"
        ++ "\". Available: viral-popup, clean-minimal, bold-impact, neon-glow")
    ∧ getPreset "toString" = .ok (.protoMember "toString") := by
  refine ⟨⟨by decide, by decide⟩, ?_, ?_⟩
  · exact getPreset_amended.2.1 "nope" (by decide) (by decide)
  · exact getPreset_amended.2.2.1 "toString" (by decide)

end Clipbot
